import Mathlib

/-! Energy meter: aggregation pipeline and bias calibration.

A shallow embedding of `energy_meter/main.c` (the two-tier rolling-window
aggregator `collect_1m` / `collect_10m`, the reporter `print_data` and the
startup `em_init`) and of `energy_meter/measure.c` (the calibration routine
`bias_check`, the sampler `get_measure`, and the checks `ct_sensor_setup` and
`adc_setup`).

Modelling conventions.

* C `float` values are modelled by exact rationals (`ℚ`): the rounding of the
  binary32 operations is not modelled.  The readings and means of the
  concrete aggregator runs below (small integers, quarters) are exactly
  representable in binary32, and the bias voltages of the concrete batches
  below lie far from the limits they are compared with.
* The arrays of `struct em_loggin` are modelled as maps from an index to a
  value.  The slots of the short window are the indices `0..W-1`, those of
  the long window the indices `0..K-1`: these are the indices every reader
  of the windows uses.  The declaration of the structure (header `em.h`) is
  not part of the sources.  The source stores at `em_log.c[t]` and
  `em_log.v[t]` with `t = W` on every pass that folds; the model records
  that store in the entry `W` of the map, which is no slot of the window and
  stands for no memory cell.  Which cell the store reaches in the running
  program is decided by the layout of the structure and is outside the
  model: what is stated below of the state after a pass that folds is
  stated of these maps, and no statement concludes from an entry at an
  index `≥ W` more than that the store at that index was made.
* `uint8_t` counters are natural numbers reduced modulo `256` on increment.
* The library function `sqrt` is a parameter of the sampler; what a
  statement needs of it is a hypothesis of that statement.
* The window length (`MINUTE` in the source) and the number of long-window
  slots (`10` in the source, with the literal `9` as the last index) are
  parameters `W` and `K` of the definitions; the source is the instance
  `W = MINUTE = 240`, `K = 10`.
-/

namespace EnergyMeter

/-! ## Data model -/

/-- Record `struct em_realtime`: the latest RMS reading and the averages
that `print_data` stores next to it. -/
structure em_realtime where
  rms_c : ℚ
  rms_v : ℚ
  rms_c_1m : ℚ
  rms_v_1m : ℚ
  rms_c_10m : ℚ
  rms_v_10m : ℚ

/-- Record `struct em_loggin`: short window `c`, `v`, long window `c10m`,
`v10m`, and the two ready flags. -/
structure em_loggin where
  c : Nat → ℚ
  v : Nat → ℚ
  c10m : Nat → ℚ
  v10m : Nat → ℚ
  samples_1m_ready : Bool
  samples_10m_ready : Bool

/-- Macro `MINUTE` of `main.c`: one sample each 250 ms for 60 s. -/
def MINUTE : Nat := 240

/-- Number of long-window slots (`c10m[i]`, `i < 10`). -/
def TEN : Nat := 10

/-- Store `a[i] = x` in an array modelled as a map: the entry `i` becomes
`x` and no other entry changes.  For `i` within the declared length this is
the C store; for `i` past it the entry only records that the store was
made. -/
def store (a : Nat → ℚ) (i : Nat) (x : ℚ) : Nat → ℚ :=
  fun j => if j = i then x else a j

/-- Accumulation loop `for (i = 0; i < n; i++) acc += a[i];` started at `0`. -/
def accumulate (a : Nat → ℚ) (n : Nat) : ℚ :=
  (List.range n).foldl (fun acc i => acc + a i) 0

/-- Function `collect_10m(t)` with `MINUTE = W`: the sums of the `W` short
slots divided by `W` are stored in long slot `t`. -/
def collect_10m (W : Nat) (log : em_loggin) (t : Nat) : em_loggin :=
  let c := accumulate log.c W
  let v := accumulate log.v W
  { log with
    c10m := store log.c10m t (c / (W : ℚ))
    v10m := store log.v10m t (v / (W : ℚ)) }

/-- Frame of the thread `collect_1m`: the shared record `em_log` and the
two local cursors `t` and `t_10`. -/
structure Aggregator where
  em_log : em_loggin
  t : Nat
  t_10 : Nat

/-- Statement `if (!flag) flag = true;` on `samples_1m_ready`. -/
def mark_1m (log : em_loggin) : em_loggin :=
  if !log.samples_1m_ready then { log with samples_1m_ready := true } else log

/-- Statement `if (!flag) flag = true;` on `samples_10m_ready`. -/
def mark_10m (log : em_loggin) : em_loggin :=
  if !log.samples_10m_ready then { log with samples_10m_ready := true } else log

/-- One pass through the body of the `while (1)` loop of `collect_1m`
(after the 250 ms sleep), with `MINUTE = W` and `K` long slots. -/
def collect_1m_tick (W K : Nat) (s : Aggregator) (em_rt : em_realtime) : Aggregator :=
  let log : em_loggin :=
    { s.em_log with
      c := store s.em_log.c s.t em_rt.rms_c
      v := store s.em_log.v s.t em_rt.rms_v }
  if s.t < W then
    { em_log := log, t := (s.t + 1) % 256, t_10 := s.t_10 }
  else
    let log := collect_10m W (mark_1m log) s.t_10
    if s.t_10 = K - 1 then
      { em_log := mark_10m log, t := 0, t_10 := 0 }
    else
      { em_log := log, t := 0, t_10 := (s.t_10 + 1) % 256 }

/-- Whether the pass started in state `s` takes the branch that calls
`collect_10m` (the `else` of `if (t < MINUTE)`). -/
def folds (W : Nat) (s : Aggregator) : Bool := !decide (s.t < W)

/-- Zero-initialised static storage and cursors at thread start. -/
def init : Aggregator :=
  { em_log :=
      { c := fun _ => 0, v := fun _ => 0, c10m := fun _ => 0, v10m := fun _ => 0
        samples_1m_ready := false, samples_10m_ready := false }
    t := 0
    t_10 := 0 }

/-- State after one pass per reading of `rs`, in order. -/
def run (W K : Nat) (s : Aggregator) (rs : List em_realtime) : Aggregator :=
  rs.foldl (collect_1m_tick W K) s

/-- Number of calls of `collect_10m` made while processing `rs` from `s`. -/
def foldCount (W K : Nat) : Aggregator → List em_realtime → Nat
  | _, [] => 0
  | s, r :: rs => (if folds W s then 1 else 0) + foldCount W K (collect_1m_tick W K s r) rs

/-- A realtime record with current `c` and the published voltage `v`. -/
def reading (c v : ℚ) : em_realtime :=
  { rms_c := c, rms_v := v, rms_c_1m := 0, rms_v_1m := 0, rms_c_10m := 0, rms_v_10m := 0 }

/-- The 13 readings of the end-to-end scenario (current in amperes). -/
def scenario : List em_realtime :=
  [1, 2, 3, 4, 2, 2, 2, 2, 5, 5, 5, 5, 9].map (fun c => reading c 230)

/-! ## Invariants of a run of the source instance -/

/-- Values of the cursors and flags after `n` passes of the source instance
(`MINUTE = 240`, ten long slots) from the initial state. -/
structure Inv (n : Nat) (s : Aggregator) : Prop where
  t_eq : s.t = n % 241
  t10_eq : s.t_10 = (n / 241) % 10
  r1 : s.em_log.samples_1m_ready = decide (241 ≤ n)
  r10 : s.em_log.samples_10m_ready = decide (2410 ≤ n)

/-- Shape of the state while the first `n ≤ MINUTE` readings `f 0, …, f (n-1)`
are stored: nothing folded yet, slot `i < n` holds reading `i`. -/
structure Filling (f : Nat → em_realtime) (n : Nat) (s : Aggregator) : Prop where
  t_eq : s.t = n
  t10_eq : s.t_10 = 0
  c_eq : ∀ i, s.em_log.c i = if i < n then (f i).rms_c else 0
  v_eq : ∀ i, s.em_log.v i = if i < n then (f i).rms_v else 0

/-! ## Calibration (`measure.c`) -/

/-- Constants that `bias_check` takes from headers outside the sources
(`core.h`, `ct.h`): batch size, ADC resolution in bits, supply voltage and
the acceptance band of the bias voltage. -/
structure Config where
  SAMPLE_UNIT : Nat
  ADC_BIT : Nat
  ANALOG_VCC : ℚ
  V_MIN : ℚ
  V_MAX : ℚ

/-- Value of a 32-bit `int` after an addition that wraps (two's complement). -/
def wrap_int (x : Int) : Int := (x + 2147483648) % 4294967296 - 2147483648

/-- Constant `tmp_adc_scale_bias = (1 << ADC_BIT) / ANALOG_VCC`, a `float`
quotient (`ANALOG_VCC` is a voltage, not an integer). -/
def tmp_adc_scale_bias (k : Config) : ℚ := ((2 ^ k.ADC_BIT : Nat) : ℚ) / k.ANALOG_VCC

/-- Constant `adc_scale_bias = 1 / tmp_adc_scale_bias`. -/
def adc_scale_bias (k : Config) : ℚ := 1 / tmp_adc_scale_bias k

/-- Loop `for (i = 0; i < n; i++) *offset += adc_sample(...)` started at `0`;
`adc i` is the result of the `i`-th conversion.  The counter is a `uint8_t`,
so the loop is the source's for `n ≤ 255`. -/
def bias_sum (adc : Nat → Int) (n : Nat) : Int :=
  (List.range n).foldl (fun acc i => wrap_int (acc + adc i)) 0

/-- Function `bias_check`: the pair of the return code and the value left
in `*offset`. -/
def bias_check (k : Config) (adc : Nat → Int) : Int × Int :=
  let offset := (bias_sum adc k.SAMPLE_UNIT).tdiv (k.SAMPLE_UNIT : Int)
  let bias_voltage : ℚ := (offset : ℚ) * adc_scale_bias k
  if bias_voltage < k.V_MIN ∨ bias_voltage > k.V_MAX then (-1, offset) else (0, offset)

/-- A board with a 12-bit converter supplied at 3.3 V, two samples per
batch and the band 1.5 V .. 1.8 V around half the supply. -/
def board : Config :=
  { SAMPLE_UNIT := 2, ADC_BIT := 12, ANALOG_VCC := 33 / 10, V_MIN := 3 / 2, V_MAX := 9 / 5 }

/-- Two conversions at the rails: code `0`, then code `4095`. -/
def rails : Nat → Int := fun i => if i = 0 then 0 else 4095

/-- Two conversions near mid-scale: code `2047`, then code `2048`. -/
def midscale : Nat → Int := fun i => if i = 0 then 2047 else 2048

/-! ## Sampling (`measure.c`) -/

/-- Constants that `get_measure` and `ct_sensor_setup` take from headers
outside the sources (`core.h`, `ct.h`, `math.h`). -/
structure Sensor where
  SAMPLE_UNIT : Nat
  ADC_BIT : Nat
  BIAS_OFFSET : Int
  ANALOG_IN_VPP : ℚ
  CT_RATIO : ℚ
  RMS_MAX_CURRENT : Nat
  M_SQRT2 : ℚ
  CT_MAX_INPUT : ℚ
  K : ℚ
  MCU_MAX_CURRENT_SINK : ℚ

/-- Constant `p_max_cur = RMS_MAX_CURRENT * M_SQRT2`. -/
def p_max_cur (k : Sensor) : ℚ := (k.RMS_MAX_CURRENT : ℚ) * k.M_SQRT2

/-- Constant `s_max_cur = p_max_cur / CT_RATIO`. -/
def s_max_cur (k : Sensor) : ℚ := p_max_cur k / k.CT_RATIO

/-- Constant `bur_resistor = (ANALOG_IN_VPP * 0.5) / s_max_cur`. -/
def bur_resistor (k : Sensor) : ℚ := (k.ANALOG_IN_VPP * (1 / 2)) / s_max_cur k

/-- Constant `tmp_adc_scale_factor = (1 << ADC_BIT) / ANALOG_IN_VPP`. -/
def tmp_adc_scale_factor (k : Sensor) : ℚ := ((2 ^ k.ADC_BIT : Nat) : ℚ) / k.ANALOG_IN_VPP

/-- Constant `adc_scale_factor = 1 / tmp_adc_scale_factor`. -/
def adc_scale_factor (k : Sensor) : ℚ := 1 / tmp_adc_scale_factor k

/-- Function `ct_sensor_setup`: `-1` when the rated RMS current exceeds the
transformer's input limit or the secondary peak current exceeds the sink
limit of the pin, else `0`. -/
def ct_sensor_setup (k : Sensor) : Int :=
  if (k.RMS_MAX_CURRENT : ℚ) > k.CT_MAX_INPUT then -1
  else if s_max_cur k * k.K > k.MCU_MAX_CURRENT_SINK then -1
  else 0

/-- Value of an `int` stored in an `int16_t`. -/
def wrap_int16 (x : Int) : Int := (x + 32768) % 65536 - 32768

/-- Statement `I[i] = adc_sample(...) - (BIAS_OFFSET) - (adc_offset)`: the
value left in the `int16_t` slot for the conversion result `raw`. -/
def corrected (k : Sensor) (adc_offset raw : Int) : Int :=
  wrap_int16 (wrap_int (wrap_int (raw - k.BIAS_OFFSET) - adc_offset))

/-- Accumulator `sum_squared += x[i] * x[i]` (a `uint32_t`, started at `0`)
after the first `n` passes of the sampling loop. -/
def sum_squared (x : Nat → Int) (n : Nat) : Int :=
  (List.range n).foldl (fun acc i => (acc + x i * x i) % 4294967296) 0

/-- Number of passes of `do { ... i++; } while (i < SAMPLE_UNIT)`: the body
runs once before the first test.  The counter is a `uint8_t`, so this is the
source's loop for `SAMPLE_UNIT ≤ 255`. -/
def passes (k : Sensor) : Nat := max k.SAMPLE_UNIT 1

/-- Expression `sqrt(sum_squared / (SAMPLE_UNIT))` of `get_measure` for the
bias-corrected samples `x`: the quotient is taken between integers, then
handed to the library function `sqrt` (a parameter; its results are doubles,
hence rationals). -/
def rms_magnitude (sqrt : ℚ → ℚ) (k : Sensor) (x : Nat → Int) : ℚ :=
  sqrt (((sum_squared x (passes k) / (k.SAMPLE_UNIT : Int) : Int)) : ℚ)

/-- Local `rms_in_c` (resp. `rms_in_v`) of `get_measure`:
`sqrt(sum_squared / (SAMPLE_UNIT)) * adc_scale_factor`. -/
def rms_in (sqrt : ℚ → ℚ) (k : Sensor) (x : Nat → Int) : ℚ :=
  rms_magnitude sqrt k x * adc_scale_factor k

/-- Function `get_measure`: the return code and the record `*em` after the
call; `adc_I i` and `adc_V i` are the results of the `i`-th conversions of
the current and voltage channels. -/
def get_measure (sqrt : ℚ → ℚ) (k : Sensor) (adc_I adc_V : Nat → Int) (em : em_realtime)
    (adc_offset : Int) : Int × em_realtime :=
  let rms_in_c := rms_in sqrt k (fun i => corrected k adc_offset (adc_I i))
  let rms_in_v := rms_in sqrt k (fun i => corrected k adc_offset (adc_V i))
  let _ := rms_in_v
  (0, { em with rms_c := (rms_in_c * k.CT_RATIO) / bur_resistor k, rms_v := 230 })

/-- A sensor with a 12-bit converter, 3.3 V input span, mid-scale bias, two
samples per batch and a transformer rated above the configured current. -/
def sensor : Sensor :=
  { SAMPLE_UNIT := 2, ADC_BIT := 12, BIAS_OFFSET := 2048, ANALOG_IN_VPP := 33 / 10,
    CT_RATIO := 2000, RMS_MAX_CURRENT := 30, M_SQRT2 := 14142 / 10000,
    CT_MAX_INPUT := 100, K := 1000, MCU_MAX_CURRENT_SINK := 25 }

/-- The same sensor configured for 120 A RMS on a transformer rated for
100 A. -/
def overrated : Sensor := { sensor with RMS_MAX_CURRENT := 120 }

/-- Two conversions one and two codes above the bias point. -/
def ramp : Nat → Int := fun i => if i = 0 then 2049 else 2050

/-- Conversions alternating 100 codes above and below the bias point. -/
def square_wave : Nat → Int := fun i => if i % 2 = 0 then 2148 else 1948

/-! ## Reporter and startup (`main.c`) -/

/-- Function `print_data`: the records `em_rt` and `em_log` after the call.
The four average fields of `em_rt` are set to `0`, accumulate the window
slots and are divided by the window length; the console output is left
out. -/
def print_data (em_rt : em_realtime) (em_log : em_loggin) : em_realtime × em_loggin :=
  ({ em_rt with
      rms_c_1m := accumulate em_log.c MINUTE / (MINUTE : ℚ)
      rms_v_1m := accumulate em_log.v MINUTE / (MINUTE : ℚ)
      rms_c_10m := accumulate em_log.c10m 10 / 10
      rms_v_10m := accumulate em_log.v10m 10 / 10 },
   em_log)

/-- Function `em_handler`: calls `print_data` and returns `0`. -/
def em_handler (em_rt : em_realtime) (em_log : em_loggin) : Int × em_realtime × em_loggin :=
  (0, print_data em_rt em_log)

/-- Loop `while (i > bound) { a[i] = 0; b[i] = 0; i++; }` with the `uint8_t`
counter at `i`; `none` when the fuel runs out before the test fails. -/
def zero_while (bound : Nat) : Nat → Nat → (Nat → ℚ) → (Nat → ℚ) →
    Option ((Nat → ℚ) × (Nat → ℚ))
  | 0, _, _, _ => none
  | fuel + 1, i, a, b =>
    if i > bound then zero_while bound fuel ((i + 1) % 256) (store a i 0) (store b i 0)
    else some (a, b)

/-- Initialisation block of `em_init`: both flags are cleared, then the two
`while` loops run with the counter started at `0`. -/
def init_block (log : em_loggin) : Option em_loggin :=
  match zero_while MINUTE 256 0 log.c log.v with
  | none => none
  | some (c, v) =>
    match zero_while 10 256 0 log.c10m log.v10m with
    | none => none
    | some (c10m, v10m) =>
      some { c := c, v := v, c10m := c10m, v10m := v10m
             samples_1m_ready := false, samples_10m_ready := false }

/-- ADC line numbers and the number of lines of the board (`core.h`,
`periph/adc.h`). -/
structure Channels where
  ADC_CH_CURRENT : Nat
  ADC_CH_VOLTAGE : Nat
  ADC_CH_BIASING : Nat
  ADC_NUMOF : Nat

/-- Function `adc_setup`; `adc_init l` is the result of `adc_init(ADC_LINE(l))`. -/
def adc_setup (ch : Channels) (adc_init : Nat → Int) : Int :=
  if ch.ADC_CH_CURRENT > ch.ADC_NUMOF then -1
  else if ch.ADC_CH_VOLTAGE > ch.ADC_NUMOF then -1
  else if ch.ADC_CH_BIASING > ch.ADC_NUMOF then -1
  else if adc_init ch.ADC_CH_BIASING < 0 then -1
  else if adc_init ch.ADC_CH_CURRENT < 0 then -1
  else if adc_init ch.ADC_CH_VOLTAGE < 0 then -1
  else 0

/-- What the kernel and the peripherals answer during `em_init`: the results
of `adc_init` per line, the conversions of the bias channel, the value
`thread_create` returns for the thread of a given name, and the kernel
constant `KERNEL_PID_UNDEF`. -/
structure Outside where
  adc_init : Nat → Int
  adc_bias : Nat → Int
  thread_create : String → Int
  KERNEL_PID_UNDEF : Int

/-- Static state of `main.c` that `em_init` reads and writes: the two pids,
the record `em_log`, and the calls of `thread_create` made so far (name and
returned value). -/
structure Startup where
  pid_sampling : Int
  pid_collect_1m : Int
  em_log : em_loggin
  created : List (String × Int)

/-- Value of an `int` stored in an `int8_t`. -/
def wrap_int8 (x : Int) : Int := (x + 128) % 256 - 128

/-- Function `em_init`: the return code and the static state after the
call.  The value of `ct_sensor_setup()` is computed and dropped, as in the
source. -/
def em_init (b : Config) (ch : Channels) (k : Sensor) (o : Outside) (s : Startup) :
    Option (Int × Startup) :=
  match init_block s.em_log with
  | none => none
  | some log =>
    let s := { s with em_log := log }
    let _ := ct_sensor_setup k
    if adc_setup ch o.adc_init < 0 then some (-1, s)
    else if s.pid_sampling = -1 ∧ (bias_check b o.adc_bias).1 < 0 then some (-1, s)
    else
      let pid := wrap_int8 (o.thread_create "em sampling")
      let s := { s with pid_sampling := pid, created := s.created ++ [("em sampling", pid)] }
      if pid < o.KERNEL_PID_UNDEF then some (-1, s)
      else
        let pid := wrap_int8 (o.thread_create "em collect 1m")
        let s := { s with pid_collect_1m := pid
                          created := s.created ++ [("em collect 1m", pid)] }
        if pid < o.KERNEL_PID_UNDEF then some (-1, s)
        else some (0, s)

/-- Static state at boot: both pids `-1`, zeroed record, no thread. -/
def boot : Startup :=
  { pid_sampling := -1, pid_collect_1m := -1, em_log := init.em_log, created := [] }

/-- Three ADC lines on a board with eight. -/
def lines : Channels :=
  { ADC_CH_CURRENT := 0, ADC_CH_VOLTAGE := 1, ADC_CH_BIASING := 2, ADC_NUMOF := 8 }

/-- Peripherals that initialise, a bias channel at mid-scale, and a kernel
that hands out the pids 3 and 4. -/
def healthy : Outside :=
  { adc_init := fun _ => 0, adc_bias := midscale
    thread_create := fun name => if name = "em sampling" then 3 else 4
    KERNEL_PID_UNDEF := 0 }

/-- The same surroundings with the bias channel stuck at code `0`. -/
def grounded : Outside := { healthy with adc_bias := fun _ => 0 }

/-- Record `em_log` after one pass of the aggregator with the reading 5 A,
230 V: slot 0 of the short window holds the reading. -/
def stale : em_loggin := (run MINUTE TEN init [reading 5 230]).em_log

/-! ## Elementary facts about one pass -/

theorem tick_of_lt (W K : Nat) (s : Aggregator) (r : em_realtime) (h : s.t < W) :
    collect_1m_tick W K s r =
      { em_log := { s.em_log with
                    c := store s.em_log.c s.t r.rms_c
                    v := store s.em_log.v s.t r.rms_v }
        t := (s.t + 1) % 256
        t_10 := s.t_10 } := by
  simp [collect_1m_tick, h]

theorem tick_t_of_ge (W K : Nat) (s : Aggregator) (r : em_realtime) (h : ¬ s.t < W) :
    (collect_1m_tick W K s r).t = 0 := by
  unfold collect_1m_tick
  simp only [h, if_false]
  split <;> rfl

theorem tick_t10_of_ge (W K : Nat) (s : Aggregator) (r : em_realtime) (h : ¬ s.t < W) :
    (collect_1m_tick W K s r).t_10 = if s.t_10 = K - 1 then 0 else (s.t_10 + 1) % 256 := by
  unfold collect_1m_tick
  simp only [h, if_false]
  split <;> rfl

theorem mark_1m_ready (log : em_loggin) : (mark_1m log).samples_1m_ready = true := by
  unfold mark_1m
  cases h : log.samples_1m_ready <;> simp [h]

theorem mark_1m_ready10 (log : em_loggin) :
    (mark_1m log).samples_10m_ready = log.samples_10m_ready := by
  unfold mark_1m
  split <;> rfl

theorem mark_10m_ready (log : em_loggin) : (mark_10m log).samples_10m_ready = true := by
  unfold mark_10m
  cases h : log.samples_10m_ready <;> simp [h]

theorem mark_10m_ready1 (log : em_loggin) :
    (mark_10m log).samples_1m_ready = log.samples_1m_ready := by
  unfold mark_10m
  split <;> rfl

theorem tick_ready1_of_ge (W K : Nat) (s : Aggregator) (r : em_realtime) (h : ¬ s.t < W) :
    (collect_1m_tick W K s r).em_log.samples_1m_ready = true := by
  unfold collect_1m_tick
  simp only [h, if_false]
  split
  · rw [mark_10m_ready1]; simp [collect_10m, mark_1m_ready]
  · simp [collect_10m, mark_1m_ready]

theorem tick_ready10_of_ge (W K : Nat) (s : Aggregator) (r : em_realtime) (h : ¬ s.t < W) :
    (collect_1m_tick W K s r).em_log.samples_10m_ready =
      (s.em_log.samples_10m_ready || decide (s.t_10 = K - 1)) := by
  unfold collect_1m_tick
  simp only [h, if_false]
  split
  · rename_i h10
    rw [mark_10m_ready]; simp [h10]
  · rename_i h10
    simp [collect_10m, mark_1m_ready10, h10]

theorem run_nil (W K : Nat) (s : Aggregator) : run W K s [] = s := rfl

theorem run_cons (W K : Nat) (s : Aggregator) (r : em_realtime) (rs : List em_realtime) :
    run W K s (r :: rs) = run W K (collect_1m_tick W K s r) rs := rfl

theorem run_append (W K : Nat) (s : Aggregator) (rs qs : List em_realtime) :
    run W K s (rs ++ qs) = run W K (run W K s rs) qs := by
  simp [run, List.foldl_append]

/-! ## Cursors and flags along a run of the source instance -/

theorem inv_init : Inv 0 init := by
  constructor <;> simp [init]

theorem inv_tick (n : Nat) (s : Aggregator) (r : em_realtime) (h : Inv n s) :
    Inv (n + 1) (collect_1m_tick MINUTE TEN s r) := by
  obtain ⟨ht, ht10, hr1, hr10⟩ := h
  by_cases hlt : s.t < MINUTE
  · rw [tick_of_lt _ _ _ _ hlt]
    simp only [MINUTE] at hlt
    constructor
    · show (s.t + 1) % 256 = (n + 1) % 241
      omega
    · show s.t_10 = ((n + 1) / 241) % 10
      omega
    · show s.em_log.samples_1m_ready = decide (241 ≤ n + 1)
      rw [hr1]
      have : (241 ≤ n) ↔ (241 ≤ n + 1) := by omega
      simp [this]
    · show s.em_log.samples_10m_ready = decide (2410 ≤ n + 1)
      rw [hr10]
      have : (2410 ≤ n) ↔ (2410 ≤ n + 1) := by omega
      simp [this]
  · have hlt2 : ¬ s.t < 240 := by simpa [MINUTE] using hlt
    constructor
    · rw [tick_t_of_ge _ _ _ _ hlt]
      omega
    · rw [tick_t10_of_ge _ _ _ _ hlt]
      simp only [TEN]
      split <;> omega
    · rw [tick_ready1_of_ge _ _ _ _ hlt]
      have : 241 ≤ n + 1 := by omega
      simp [this]
    · rw [tick_ready10_of_ge _ _ _ _ hlt, hr10]
      simp only [TEN]
      have : (2410 ≤ n + 1) ↔ (2410 ≤ n ∨ s.t_10 = 10 - 1) := by omega
      simp [this]

theorem inv_run (rs : List em_realtime) :
    ∀ (n : Nat) (s : Aggregator), Inv n s → Inv (n + rs.length) (run MINUTE TEN s rs) := by
  induction rs with
  | nil => intro n s h; simpa [run_nil] using h
  | cons r rs ih =>
    intro n s h
    have h2 := ih (n + 1) (collect_1m_tick MINUTE TEN s r) (inv_tick n s r h)
    rw [run_cons]
    have e : n + (r :: rs).length = n + 1 + rs.length := by simp; omega
    rw [e]
    exact h2

theorem inv_reach (rs : List em_realtime) : Inv rs.length (run MINUTE TEN init rs) := by
  simpa using inv_run rs 0 init inv_init

theorem foldCount_inv (rs : List em_realtime) :
    ∀ (n : Nat) (s : Aggregator), Inv n s →
      n / 241 + foldCount MINUTE TEN s rs = (n + rs.length) / 241 := by
  induction rs with
  | nil => intro n s _; simp [foldCount]
  | cons r rs ih =>
    intro n s h
    have h2 := ih (n + 1) (collect_1m_tick MINUTE TEN s r) (inv_tick n s r h)
    have ht := h.t_eq
    have e : n + (r :: rs).length = n + 1 + rs.length := by simp; omega
    rw [e, ← h2]
    simp only [foldCount, folds, MINUTE]
    by_cases hlt : s.t < 240
    · simp only [hlt, decide_True, Bool.not_true]
      simp only [Bool.false_eq_true, if_false]
      omega
    · simp only [hlt, decide_False, Bool.not_false, if_true]
      omega

theorem foldCount_reach (rs : List em_realtime) :
    foldCount MINUTE TEN init rs = rs.length / 241 := by
  have := foldCount_inv rs 0 init inv_init
  simpa using this

/-! ## Content of the short window during the first cycle -/

theorem store_same (a : Nat → ℚ) (i : Nat) (x : ℚ) : store a i x i = x := by
  simp [store]

theorem accumulate_succ (a : Nat → ℚ) (n : Nat) :
    accumulate a (n + 1) = accumulate a n + a n := by
  simp [accumulate, List.range_succ, List.foldl_append]

theorem accumulate_eq_sum (a : Nat → ℚ) (n : Nat) :
    accumulate a n = ∑ i in Finset.range n, a i := by
  induction n with
  | zero => simp [accumulate]
  | succ n ih => rw [accumulate_succ, Finset.sum_range_succ, ih]

theorem filling_prefix (f : Nat → em_realtime) (n : Nat) (hn : n ≤ MINUTE) :
    Filling f n (run MINUTE TEN init ((List.range n).map f)) := by
  induction n with
  | zero => constructor <;> simp [run_nil, init]
  | succ n ih =>
    have h := ih (by omega)
    have hlt : (run MINUTE TEN init ((List.range n).map f)).t < MINUTE := by
      rw [h.t_eq]; omega
    rw [List.range_succ, List.map_append, run_append, List.map_singleton, run_cons, run_nil,
      tick_of_lt _ _ _ _ hlt]
    have hn2 : n < 240 := by simp only [MINUTE] at hn; omega
    constructor
    · show ((run MINUTE TEN init ((List.range n).map f)).t + 1) % 256 = n + 1
      rw [h.t_eq]; omega
    · exact h.t10_eq
    · intro i
      show store _ _ _ i = _
      simp only [store, h.t_eq, h.c_eq]
      by_cases hi : i = n
      · simp [hi]
      · by_cases hi2 : i < n
        · have : i < n + 1 := by omega
          simp [hi, hi2, this]
        · have : ¬ i < n + 1 := by omega
          simp [hi, hi2, this]
    · intro i
      show store _ _ _ i = _
      simp only [store, h.t_eq, h.v_eq]
      by_cases hi : i = n
      · simp [hi]
      · by_cases hi2 : i < n
        · have : i < n + 1 := by omega
          simp [hi, hi2, this]
        · have : ¬ i < n + 1 := by omega
          simp [hi, hi2, this]

theorem mark_1m_c (log : em_loggin) : (mark_1m log).c = log.c := by
  unfold mark_1m
  split <;> rfl

theorem mark_1m_v (log : em_loggin) : (mark_1m log).v = log.v := by
  unfold mark_1m
  split <;> rfl

theorem mark_10m_c (log : em_loggin) : (mark_10m log).c = log.c := by
  unfold mark_10m
  split <;> rfl

theorem mark_10m_v (log : em_loggin) : (mark_10m log).v = log.v := by
  unfold mark_10m
  split <;> rfl

theorem tick_c (W K : Nat) (s : Aggregator) (r : em_realtime) :
    (collect_1m_tick W K s r).em_log.c = store s.em_log.c s.t r.rms_c := by
  unfold collect_1m_tick
  split
  · rfl
  · split
    · show (mark_10m (collect_10m W (mark_1m _) _)).c = _
      rw [mark_10m_c]
      show (mark_1m _).c = _
      rw [mark_1m_c]
    · show (collect_10m W (mark_1m _) _).c = _
      show (mark_1m _).c = _
      rw [mark_1m_c]

theorem tick_v (W K : Nat) (s : Aggregator) (r : em_realtime) :
    (collect_1m_tick W K s r).em_log.v = store s.em_log.v s.t r.rms_v := by
  unfold collect_1m_tick
  split
  · rfl
  · split
    · show (mark_10m (collect_10m W (mark_1m _) _)).v = _
      rw [mark_10m_v]
      show (mark_1m _).v = _
      rw [mark_1m_v]
    · show (collect_10m W (mark_1m _) _).v = _
      show (mark_1m _).v = _
      rw [mark_1m_v]

theorem tick_long_of_lt (W K : Nat) (s : Aggregator) (r : em_realtime) (h : s.t < W) :
    (collect_1m_tick W K s r).em_log.c10m = s.em_log.c10m ∧
    (collect_1m_tick W K s r).em_log.v10m = s.em_log.v10m := by
  rw [tick_of_lt _ _ _ _ h]
  exact ⟨rfl, rfl⟩

theorem filling_long (f : Nat → em_realtime) (n : Nat) (hn : n ≤ MINUTE) :
    (run MINUTE TEN init ((List.range n).map f)).em_log.c10m = init.em_log.c10m ∧
    (run MINUTE TEN init ((List.range n).map f)).em_log.v10m = init.em_log.v10m := by
  induction n with
  | zero => exact ⟨rfl, rfl⟩
  | succ n ih =>
    have h := ih (by omega)
    have hp := filling_prefix f n (by omega)
    have hlt : (run MINUTE TEN init ((List.range n).map f)).t < MINUTE := by
      rw [hp.t_eq]; omega
    have hl := tick_long_of_lt MINUTE TEN _ (f n) hlt
    rw [List.range_succ, List.map_append, run_append, List.map_singleton, run_cons, run_nil]
    exact ⟨hl.1.trans h.1, hl.2.trans h.2⟩

/-! ## Properties of the aggregator -/

/-- C1: what the loop body computes on the end-to-end scenario (`W = 4`,
`K = 3`, the 13 readings, zeroed state).  After collect_1m_tick 4 the short flag is still
false and long slot 0 still holds 0; the first fold comes with collect_1m_tick 5 (slot 0
becomes 2.5), the second with collect_1m_tick 10 (slot 1 becomes 11/4, the mean of
2, 2, 2, 5); after collect_1m_tick 12 long slot 2 still holds 0 and the long flag is
false. -/
theorem scenario_trace :
    (run 4 3 init (scenario.take 4)).em_log.samples_1m_ready = false ∧
    (run 4 3 init (scenario.take 4)).em_log.c10m 0 = 0 ∧
    (run 4 3 init (scenario.take 5)).em_log.samples_1m_ready = true ∧
    (run 4 3 init (scenario.take 5)).em_log.c10m 0 = 5 / 2 ∧
    (run 4 3 init (scenario.take 8)).em_log.c10m 1 = 0 ∧
    (run 4 3 init (scenario.take 10)).em_log.c10m 1 = 11 / 4 ∧
    (run 4 3 init (scenario.take 12)).em_log.c10m 2 = 0 ∧
    (run 4 3 init (scenario.take 12)).em_log.samples_10m_ready = false := by
  refine ⟨by decide, ?_, by decide, ?_, ?_, ?_, ?_, by decide⟩ <;>
    norm_num [run, scenario, reading, collect_1m_tick, init, collect_10m, mark_1m, mark_10m, store,
      accumulate, List.range, List.range.loop]

/-- C2: from the initial state the cursor `t` after `n` passes is
`n mod (MINUTE + 1)` and `collect_10m` has been called `n / (MINUTE + 1)`
times: one fold per 241 insertions.  After `10 * MINUTE = 2400` passes nine
folds have been made, not ten. -/
theorem fold_once_per_241 :
    (∀ rs : List em_realtime,
      (run MINUTE TEN init rs).t = rs.length % (MINUTE + 1) ∧
      foldCount MINUTE TEN init rs = rs.length / (MINUTE + 1)) ∧
    foldCount MINUTE TEN init (List.replicate (10 * MINUTE) (reading 1 230)) = 9 ∧
    10 * MINUTE / MINUTE = 10 := by
  refine ⟨fun rs => ⟨(inv_reach rs).t_eq, foldCount_reach rs⟩, ?_, by decide⟩
  rw [foldCount_reach, List.length_replicate]
  decide

/-- C3: in every state reached from the initial state the cursor `t` is at
most `MINUTE`, and `MINUTE` itself is reached: after `MINUTE` passes
`t = MINUTE`, and the next pass stores its reading at index `MINUTE` of
`em_log.c` and `em_log.v`. -/
theorem cursor_reaches_MINUTE (r q : em_realtime) :
    (∀ rs : List em_realtime, (run MINUTE TEN init rs).t ≤ MINUTE) ∧
    (run MINUTE TEN init (List.replicate MINUTE r)).t = MINUTE ∧
    (collect_1m_tick MINUTE TEN (run MINUTE TEN init (List.replicate MINUTE r)) q).em_log.c MINUTE
      = q.rms_c ∧
    (collect_1m_tick MINUTE TEN (run MINUTE TEN init (List.replicate MINUTE r)) q).em_log.v MINUTE
      = q.rms_v := by
  have ht : (run MINUTE TEN init (List.replicate MINUTE r)).t = MINUTE := by
    rw [(inv_reach _).t_eq, List.length_replicate]
    decide
  refine ⟨fun rs => ?_, ht, ?_, ?_⟩
  · rw [(inv_reach rs).t_eq]
    simp only [MINUTE]
    omega
  · rw [tick_c, ht, store_same]
  · rw [tick_v, ht, store_same]

/-- C4: from the initial state `samples_1m_ready` is true exactly when at
least `MINUTE + 1 = 241` readings have been inserted; in particular it is
still false after the `MINUTE`-th insertion. -/
theorem short_ready_after_241 (r : em_realtime) :
    (∀ rs : List em_realtime,
      (run MINUTE TEN init rs).em_log.samples_1m_ready = decide (MINUTE + 1 ≤ rs.length)) ∧
    (run MINUTE TEN init (List.replicate MINUTE r)).em_log.samples_1m_ready = false ∧
    (run MINUTE TEN init (List.replicate (MINUTE + 1) r)).em_log.samples_1m_ready = true := by
  refine ⟨fun rs => (inv_reach rs).r1, ?_, ?_⟩
  · rw [(inv_reach _).r1, List.length_replicate]
    decide
  · rw [(inv_reach _).r1, List.length_replicate]
    decide

/-- C5: for every state and reading, after one pass each ready flag is its
old value or-ed with "its own cursor wraps in this pass": the flags never go
from true to false, `samples_1m_ready` can only be set by a pass that resets
`t` to 0, and `samples_10m_ready` only by a pass that resets `t_10` to 0. -/
theorem ready_flags_never_revert (W K : Nat) (s : Aggregator) (r : em_realtime) :
    (collect_1m_tick W K s r).em_log.samples_1m_ready = (s.em_log.samples_1m_ready || folds W s) ∧
    (collect_1m_tick W K s r).em_log.samples_10m_ready =
      (s.em_log.samples_10m_ready || (folds W s && decide (s.t_10 = K - 1))) ∧
    (folds W s = true → (collect_1m_tick W K s r).t = 0) ∧
    (folds W s = true ∧ s.t_10 = K - 1 → (collect_1m_tick W K s r).t_10 = 0) := by
  by_cases h : s.t < W
  · rw [tick_of_lt _ _ _ _ h]
    simp [folds, h]
  · have hf : folds W s = true := by simp [folds, h]
    rw [tick_ready1_of_ge _ _ _ _ h, tick_ready10_of_ge _ _ _ _ h, tick_t_of_ge _ _ _ _ h,
      tick_t10_of_ge _ _ _ _ h, hf]
    refine ⟨by simp, by simp, fun _ => rfl, fun h2 => ?_⟩
    rw [if_pos h2.2]

/-- C6: in every state reached from the initial state the long cursor `t_10`
is below 10 and equals the number of folds made so far modulo 10; a pass
that folds moves it to `(t_10 + 1) mod 10` and any other pass leaves it
alone; `samples_10m_ready` is true exactly when ten folds have been made. -/
theorem long_cursor_cycle (rs : List em_realtime) (r : em_realtime) :
    (run MINUTE TEN init rs).t_10 < TEN ∧
    (run MINUTE TEN init rs).t_10 = foldCount MINUTE TEN init rs % TEN ∧
    (collect_1m_tick MINUTE TEN (run MINUTE TEN init rs) r).t_10 =
      (if folds MINUTE (run MINUTE TEN init rs) then ((run MINUTE TEN init rs).t_10 + 1) % TEN
       else (run MINUTE TEN init rs).t_10) ∧
    (run MINUTE TEN init rs).em_log.samples_10m_ready =
      decide (TEN ≤ foldCount MINUTE TEN init rs) := by
  have h := inv_reach rs
  have h10 := h.t10_eq
  refine ⟨?_, ?_, ?_, ?_⟩
  · rw [h10]; simp only [TEN]; omega
  · rw [h10, foldCount_reach]; rfl
  · by_cases hlt : (run MINUTE TEN init rs).t < MINUTE
    · rw [tick_of_lt _ _ _ _ hlt]
      simp [folds, hlt]
    · have hf : folds MINUTE (run MINUTE TEN init rs) = true := by simp [folds, hlt]
      rw [tick_t10_of_ge _ _ _ _ hlt, hf, if_pos rfl]
      simp only [TEN] at h10 ⊢
      split <;> omega
  · rw [h.r10, foldCount_reach]
    simp only [TEN]
    have : (2410 ≤ rs.length) ↔ (10 ≤ rs.length / 241) := by omega
    simp [this]

/-- C7: `collect_10m W log t` writes into long slot `t` of `c10m` (resp.
`v10m`) the sum of the short slots `c[0..W-1]` (resp. `v[0..W-1]`) divided by
`W`, whatever the flags are, and changes no other long slot, no short slot and
no flag.  The clause on the first cycle fails on the code: from the zeroed
initial state, once the `MINUTE` readings of the first short-window cycle are
in the slots `0..MINUTE-1`, `collect_10m` has not been called and long slot 0
still holds 0, whatever the readings were (their mean is 1 for readings of
1 A). -/
theorem collect_10m_mean (W : Nat) (log : em_loggin) (t : Nat) (f : Nat → em_realtime) :
    (∀ j, (collect_10m W log t).c10m j =
      if j = t then (∑ i in Finset.range W, log.c i) / (W : ℚ) else log.c10m j) ∧
    (∀ j, (collect_10m W log t).v10m j =
      if j = t then (∑ i in Finset.range W, log.v i) / (W : ℚ) else log.v10m j) ∧
    (collect_10m W log t).c = log.c ∧ (collect_10m W log t).v = log.v ∧
    (collect_10m W log t).samples_1m_ready = log.samples_1m_ready ∧
    (collect_10m W log t).samples_10m_ready = log.samples_10m_ready ∧
    (∀ i, (run MINUTE TEN init ((List.range MINUTE).map f)).em_log.c i =
      if i < MINUTE then (f i).rms_c else 0) ∧
    foldCount MINUTE TEN init ((List.range MINUTE).map f) = 0 ∧
    (run MINUTE TEN init ((List.range MINUTE).map f)).em_log.c10m 0 = 0 ∧
    (run MINUTE TEN init ((List.range MINUTE).map f)).em_log.v10m 0 = 0 ∧
    (∑ _i in Finset.range MINUTE, (reading 1 230).rms_c) / (MINUTE : ℚ) = 1 := by
  have hl := filling_long f MINUTE (Nat.le_refl _)
  have hp := filling_prefix f MINUTE (Nat.le_refl _)
  refine ⟨fun j => ?_, fun j => ?_, rfl, rfl, rfl, rfl, hp.c_eq, ?_, ?_, ?_, ?_⟩
  · show store _ _ _ j = _
    rw [accumulate_eq_sum]; rfl
  · show store _ _ _ j = _
    rw [accumulate_eq_sum]; rfl
  · rw [foldCount_reach, List.length_map, List.length_range]
    decide
  · rw [hl.1]; rfl
  · rw [hl.2]; rfl
  · rw [Finset.sum_const, Finset.card_range]
    norm_num [reading, MINUTE]

/-! ## Calibration: the batch sum and the truncated quotient -/

theorem wrap_int_of_range (x : Int) (h1 : -2147483648 ≤ x) (h2 : x < 2147483648) :
    wrap_int x = x := by
  unfold wrap_int
  omega

theorem bias_sum_succ (adc : Nat → Int) (n : Nat) :
    bias_sum adc (n + 1) = wrap_int (bias_sum adc n + adc n) := by
  simp [bias_sum, List.range_succ, List.foldl_append]

theorem sum_le_of_forall_le (x : Nat → Int) (n : Nat) (b : Int)
    (h : ∀ i, i < n → x i ≤ b) : ∑ i in Finset.range n, x i ≤ b * n := by
  induction n with
  | zero => simp
  | succ n ih =>
    have h1 := ih (fun i hi => h i (by omega))
    have h2 := h n (by omega)
    rw [Finset.sum_range_succ]
    push_cast
    linarith

theorem le_sum_of_forall_le (x : Nat → Int) (n : Nat) (a : Int)
    (h : ∀ i, i < n → a ≤ x i) : a * n ≤ ∑ i in Finset.range n, x i := by
  induction n with
  | zero => simp
  | succ n ih =>
    have h1 := ih (fun i hi => h i (by omega))
    have h2 := h n (by omega)
    rw [Finset.sum_range_succ]
    push_cast
    linarith

/-- No addition of the batch loop wraps when the batch has at most 255
conversions of magnitude at most `2^23`. -/
theorem bias_sum_exact (adc : Nat → Int) (n : Nat) (hn : n ≤ 255)
    (hadc : ∀ i, i < n → -8388608 ≤ adc i ∧ adc i ≤ 8388608) :
    bias_sum adc n = ∑ i in Finset.range n, adc i := by
  induction n with
  | zero => simp [bias_sum]
  | succ n ih =>
    have h1 := ih (by omega) (fun i hi => hadc i (by omega))
    have hu := sum_le_of_forall_le adc n 8388608 (fun i hi => (hadc i (by omega)).2)
    have hl := le_sum_of_forall_le adc n (-8388608) (fun i hi => (hadc i (by omega)).1)
    have hx := hadc n (by omega)
    have hn2 : (n : Int) ≤ 254 := by omega
    rw [bias_sum_succ, h1, Finset.sum_range_succ]
    apply wrap_int_of_range <;> omega

theorem tdiv_le_of_le_mul (S b N : Int) (hN : 0 < N) (h : S ≤ b * N) : S.tdiv N ≤ b := by
  by_cases hS : 0 ≤ S
  · rw [Int.tdiv_eq_ediv hS (Int.le_of_lt hN)]
    exact Int.ediv_le_of_le_mul hN h
  · have hS2 : 0 ≤ -S := by omega
    have e : S.tdiv N = -((-S) / N) := by
      rw [← Int.tdiv_eq_ediv hS2 (Int.le_of_lt hN), Int.neg_tdiv, neg_neg]
    have h3 : -b ≤ (-S) / N := Int.le_ediv_of_mul_le hN (by linarith)
    rw [e]
    omega

theorem le_tdiv_of_mul_le (S a N : Int) (hN : 0 < N) (h : a * N ≤ S) : a ≤ S.tdiv N := by
  have h2 := tdiv_le_of_le_mul (-S) (-a) N hN (by linarith)
  rw [Int.neg_tdiv] at h2
  omega

theorem bias_check_offset (k : Config) (adc : Nat → Int) :
    (bias_check k adc).2 = (bias_sum adc k.SAMPLE_UNIT).tdiv (k.SAMPLE_UNIT : Int) := by
  unfold bias_check
  simp only []
  split <;> rfl

theorem bias_check_ret (k : Config) (adc : Nat → Int) :
    (bias_check k adc).1 =
      if ((bias_check k adc).2 : ℚ) * adc_scale_bias k < k.V_MIN ∨
          ((bias_check k adc).2 : ℚ) * adc_scale_bias k > k.V_MAX then -1 else 0 := by
  rw [bias_check_offset]
  unfold bias_check
  simp only []
  split <;> rfl

theorem adc_scale_bias_pos (k : Config) (h : 0 < k.ANALOG_VCC) : 0 < adc_scale_bias k := by
  unfold adc_scale_bias tmp_adc_scale_bias
  have : (0 : ℚ) < ((2 ^ k.ADC_BIT : Nat) : ℚ) := by positivity
  positivity

theorem midscale_range (i : Nat) : -8388608 ≤ midscale i ∧ midscale i ≤ 8388608 := by
  unfold midscale
  split <;> omega

theorem board_scale : adc_scale_bias board = 33 / 40960 := by
  norm_num [adc_scale_bias, tmp_adc_scale_bias, board]

theorem midscale_offset : (bias_check board midscale).2 = 2047 := by
  rw [bias_check_offset]
  decide

theorem rails_offset : (bias_check board rails).2 = 2047 := by
  rw [bias_check_offset]
  decide

/-! ## Properties of the calibration -/

/-- C8: for a batch of `SAMPLE_UNIT` conversions (between 1 and 255 of them,
each of magnitude at most `2^23`, which covers every ADC code and the error
value `-1`), the offset `bias_check` leaves is the sum of the conversions
divided by `SAMPLE_UNIT` with the fractional part discarded: its magnitude is
the integer part of `|sum| / SAMPLE_UNIT` and its sign follows the sum
(truncation, not rounding). -/
theorem bias_offset_truncated_mean (k : Config) (adc : Nat → Int)
    (hN : 0 < k.SAMPLE_UNIT) (hN2 : k.SAMPLE_UNIT ≤ 255)
    (hadc : ∀ i, i < k.SAMPLE_UNIT → -8388608 ≤ adc i ∧ adc i ≤ 8388608) :
    (bias_check k adc).2 =
      (∑ i in Finset.range k.SAMPLE_UNIT, adc i).tdiv (k.SAMPLE_UNIT : Int) ∧
    (bias_check k adc).2.natAbs * k.SAMPLE_UNIT ≤
      (∑ i in Finset.range k.SAMPLE_UNIT, adc i).natAbs ∧
    (∑ i in Finset.range k.SAMPLE_UNIT, adc i).natAbs <
      ((bias_check k adc).2.natAbs + 1) * k.SAMPLE_UNIT ∧
    (0 ≤ ∑ i in Finset.range k.SAMPLE_UNIT, adc i → 0 ≤ (bias_check k adc).2) ∧
    (∑ i in Finset.range k.SAMPLE_UNIT, adc i ≤ 0 → (bias_check k adc).2 ≤ 0) := by
  have e : (bias_check k adc).2 =
      (∑ i in Finset.range k.SAMPLE_UNIT, adc i).tdiv (k.SAMPLE_UNIT : Int) := by
    rw [bias_check_offset, bias_sum_exact adc _ hN2 hadc]
  have hpos : (0 : Int) < (k.SAMPLE_UNIT : Int) := by omega
  have hab : (bias_check k adc).2.natAbs =
      (∑ i in Finset.range k.SAMPLE_UNIT, adc i).natAbs / k.SAMPLE_UNIT := by
    rw [e, Int.natAbs_tdiv, Int.natAbs_ofNat]
    rfl
  have hdm := Nat.div_add_mod (∑ i in Finset.range k.SAMPLE_UNIT, adc i).natAbs k.SAMPLE_UNIT
  have hm := Nat.mod_lt (∑ i in Finset.range k.SAMPLE_UNIT, adc i).natAbs hN
  refine ⟨e, ?_, ?_, ?_, ?_⟩
  · rw [hab, Nat.mul_comm]
    omega
  · rw [hab, Nat.add_mul, Nat.one_mul, Nat.mul_comm]
    omega
  · intro h
    rw [e]
    exact le_tdiv_of_mul_le _ 0 _ hpos (by simpa using h)
  · intro h
    rw [e]
    exact tdiv_le_of_le_mul _ 0 _ hpos (by simpa using h)

/-- Witness of C8: two conversions 2047 and 2048 on the sample board give
the offset 2047, not 2047.5 and not 2048. -/
theorem bias_offset_truncated_mean_witness :
    (0 < board.SAMPLE_UNIT ∧ board.SAMPLE_UNIT ≤ 255 ∧
      ∀ i, i < board.SAMPLE_UNIT → -8388608 ≤ midscale i ∧ midscale i ≤ 8388608) ∧
    (bias_check board midscale).2 =
      (∑ i in Finset.range board.SAMPLE_UNIT, midscale i).tdiv (board.SAMPLE_UNIT : Int) ∧
    (bias_check board midscale).2 = 2047 :=
  ⟨⟨by decide, by decide, fun i _ => midscale_range i⟩,
    (bias_offset_truncated_mean board midscale (by decide) (by decide)
      (fun i _ => midscale_range i)).1,
    midscale_offset⟩

/-- C9: `bias_check` returns `-1` exactly when the bias voltage it computes,
`offset * adc_scale_bias` with `offset` the truncated quotient of the batch
sum, is below `V_MIN` or above `V_MAX`, and returns `0` exactly when it is
not. -/
theorem bias_check_error_iff (k : Config) (adc : Nat → Int) :
    (bias_check k adc).2 = (bias_sum adc k.SAMPLE_UNIT).tdiv (k.SAMPLE_UNIT : Int) ∧
    ((bias_check k adc).1 = -1 ↔
      (((bias_check k adc).2 : ℚ) * adc_scale_bias k < k.V_MIN ∨
        ((bias_check k adc).2 : ℚ) * adc_scale_bias k > k.V_MAX)) ∧
    ((bias_check k adc).1 = 0 ↔
      ¬ (((bias_check k adc).2 : ℚ) * adc_scale_bias k < k.V_MIN ∨
        ((bias_check k adc).2 : ℚ) * adc_scale_bias k > k.V_MAX)) := by
  refine ⟨bias_check_offset k adc, ?_, ?_⟩
  · rw [bias_check_ret]
    split
    · rename_i h; simp [h]
    · rename_i h; simp [h]
  · rw [bias_check_ret]
    split
    · rename_i h; simp [h]
    · rename_i h; simp [h]

/-- C10, as stated, fails: on the sample board the batch of the two
conversions 0 (0 V, below `V_MIN`) and 4095 (about 3.3 V, above `V_MAX`) has
every sample outside the band, and `bias_check` returns `0` with offset
2047 (about 1.649 V, well inside the band).  And the batch 2047, 2048, every sample of which lies within the band,
yields the offset 2047, which is not the exact mean 2047.5. -/
theorem rails_accepted :
    (∀ i, i < board.SAMPLE_UNIT →
      (rails i : ℚ) * adc_scale_bias board < board.V_MIN ∨
      (rails i : ℚ) * adc_scale_bias board > board.V_MAX) ∧
    (bias_check board rails).1 = 0 ∧ (bias_check board rails).2 = 2047 ∧
    (∀ i, i < board.SAMPLE_UNIT →
      board.V_MIN ≤ (midscale i : ℚ) * adc_scale_bias board ∧
      (midscale i : ℚ) * adc_scale_bias board ≤ board.V_MAX) ∧
    ((bias_check board midscale).2 : ℚ) ≠
      (∑ i in Finset.range board.SAMPLE_UNIT, (midscale i : ℚ)) / (board.SAMPLE_UNIT : ℚ) := by
  have e2 : (bias_check board rails).2 = 2047 := rails_offset
  refine ⟨fun i _ => ?_, ?_, e2, fun i _ => ?_, ?_⟩
  · rw [board_scale]
    unfold rails
    split
    · left; norm_num [board]
    · right; norm_num [board]
  · rw [bias_check_ret, e2, board_scale]
    norm_num [board]
  · rw [board_scale]
    unfold midscale
    split <;> norm_num [board]
  · rw [midscale_offset]
    norm_num [board, midscale, Finset.sum_range_succ]

/-- C10, amended: for a batch of `SAMPLE_UNIT` conversions (between 1 and 255
of them, each of magnitude at most `2^23`) and a positive supply voltage: if
every sample converts to less than `V_MIN`, or every sample converts to more
than `V_MAX`, `bias_check` returns `-1`; if every sample converts to a value
within `[V_MIN, V_MAX]`, `bias_check` returns `0` and the offset is the
truncated integer mean of the batch. -/
theorem bias_check_uniform_batch (k : Config) (adc : Nat → Int)
    (hN : 0 < k.SAMPLE_UNIT) (hN2 : k.SAMPLE_UNIT ≤ 255)
    (hadc : ∀ i, i < k.SAMPLE_UNIT → -8388608 ≤ adc i ∧ adc i ≤ 8388608)
    (hvcc : 0 < k.ANALOG_VCC) :
    ((∀ i, i < k.SAMPLE_UNIT → (adc i : ℚ) * adc_scale_bias k < k.V_MIN) →
      (bias_check k adc).1 = -1) ∧
    ((∀ i, i < k.SAMPLE_UNIT → (adc i : ℚ) * adc_scale_bias k > k.V_MAX) →
      (bias_check k adc).1 = -1) ∧
    ((∀ i, i < k.SAMPLE_UNIT →
        k.V_MIN ≤ (adc i : ℚ) * adc_scale_bias k ∧ (adc i : ℚ) * adc_scale_bias k ≤ k.V_MAX) →
      (bias_check k adc).1 = 0 ∧
      (bias_check k adc).2 =
        (∑ i in Finset.range k.SAMPLE_UNIT, adc i).tdiv (k.SAMPLE_UNIT : Int)) := by
  have e : (bias_check k adc).2 =
      (∑ i in Finset.range k.SAMPLE_UNIT, adc i).tdiv (k.SAMPLE_UNIT : Int) := by
    rw [bias_check_offset, bias_sum_exact adc _ hN2 hadc]
  have hpos : (0 : Int) < (k.SAMPLE_UNIT : Int) := by omega
  have hsc := adc_scale_bias_pos k hvcc
  -- some sample is at least the offset, and some sample is at most the offset
  have hhi : ∃ j, j < k.SAMPLE_UNIT ∧ (bias_check k adc).2 ≤ adc j := by
    by_contra hno
    push_neg at hno
    have h1 := sum_le_of_forall_le adc k.SAMPLE_UNIT ((bias_check k adc).2 - 1)
      (fun i hi => by have := hno i hi; omega)
    have h2 := tdiv_le_of_le_mul _ _ _ hpos h1
    rw [← e] at h2
    omega
  have hlo : ∃ j, j < k.SAMPLE_UNIT ∧ adc j ≤ (bias_check k adc).2 := by
    by_contra hno
    push_neg at hno
    have h1 := le_sum_of_forall_le adc k.SAMPLE_UNIT ((bias_check k adc).2 + 1)
      (fun i hi => by have := hno i hi; omega)
    have h2 := le_tdiv_of_mul_le _ _ _ hpos h1
    rw [← e] at h2
    omega
  obtain ⟨jh, hjh, hle⟩ := hhi
  obtain ⟨jl, hjl, hge⟩ := hlo
  have hleq : ((bias_check k adc).2 : ℚ) * adc_scale_bias k ≤ (adc jh : ℚ) * adc_scale_bias k :=
    mul_le_mul_of_nonneg_right (by exact_mod_cast hle) (le_of_lt hsc)
  have hgeq : (adc jl : ℚ) * adc_scale_bias k ≤ ((bias_check k adc).2 : ℚ) * adc_scale_bias k :=
    mul_le_mul_of_nonneg_right (by exact_mod_cast hge) (le_of_lt hsc)
  refine ⟨fun h => ?_, fun h => ?_, fun h => ⟨?_, e⟩⟩
  · rw [bias_check_ret, if_pos (Or.inl (lt_of_le_of_lt hleq (h jh hjh)))]
  · rw [bias_check_ret, if_pos (Or.inr (lt_of_lt_of_le (h jl hjl) hgeq))]
  · rw [bias_check_ret, if_neg]
    intro hc
    rcases hc with hc | hc
    · exact absurd (le_trans (h jl hjl).1 hgeq) (not_le.mpr hc)
    · exact absurd (le_trans hleq (h jh hjh).2) (not_le.mpr hc)

/-- Witness of the amended C10 on the sample board: the batch 2047, 2048
lies within the band and is accepted with the truncated mean as offset; the
batch 0, 0 lies below the band and the batch 4095, 4095 above it, and both
are refused. -/
theorem bias_check_uniform_batch_witness :
    (0 < board.SAMPLE_UNIT ∧ board.SAMPLE_UNIT ≤ 255 ∧ 0 < board.ANALOG_VCC) ∧
    ((bias_check board midscale).1 = 0 ∧
      (bias_check board midscale).2 =
        (∑ i in Finset.range board.SAMPLE_UNIT, midscale i).tdiv (board.SAMPLE_UNIT : Int)) ∧
    (bias_check board (fun _ => 0)).1 = -1 ∧
    (bias_check board (fun _ => 4095)).1 = -1 :=
  ⟨⟨by decide, by decide, by norm_num [board]⟩,
    (bias_check_uniform_batch board midscale (by decide) (by decide)
      (fun i _ => midscale_range i) (by norm_num [board])).2.2
      (fun i _ => by
        rw [board_scale]
        unfold midscale
        split <;> norm_num [board]),
    (bias_check_uniform_batch board (fun _ => 0) (by decide) (by decide)
      (fun _ _ => ⟨by norm_num, by norm_num⟩) (by norm_num [board])).1
      (fun _ _ => by rw [board_scale]; norm_num [board]),
    (bias_check_uniform_batch board (fun _ => 4095) (by decide) (by decide)
      (fun _ _ => ⟨by norm_num, by norm_num⟩) (by norm_num [board])).2.1
      (fun _ _ => by rw [board_scale]; norm_num [board])⟩

/-! ## Sampling: the accumulators and the quotient -/

theorem passes_of_pos (k : Sensor) (h : 0 < k.SAMPLE_UNIT) : passes k = k.SAMPLE_UNIT := by
  unfold passes
  omega

theorem passes_le (k : Sensor) (h : k.SAMPLE_UNIT ≤ 255) : passes k ≤ 255 := by
  unfold passes
  omega

theorem sum_squared_succ (x : Nat → Int) (n : Nat) :
    sum_squared x (n + 1) = (sum_squared x n + x n * x n) % 4294967296 := by
  simp [sum_squared, List.range_succ, List.foldl_append]

theorem square_le_of_abs_le (a : Int) (h1 : -4096 ≤ a) (h2 : a ≤ 4096) :
    0 ≤ a * a ∧ a * a ≤ 16777216 := by
  constructor
  · exact mul_self_nonneg a
  · nlinarith

/-- No addition of the sampling loop wraps when the batch has at most 255
samples of magnitude at most 4096. -/
theorem sum_squared_exact (x : Nat → Int) (n : Nat) (hn : n ≤ 255)
    (hx : ∀ i, i < n → -4096 ≤ x i ∧ x i ≤ 4096) :
    sum_squared x n = ∑ i in Finset.range n, x i * x i ∧
    0 ≤ sum_squared x n ∧ sum_squared x n ≤ 16777216 * n := by
  induction n with
  | zero => simp [sum_squared]
  | succ n ih =>
    obtain ⟨h1, h2, h3⟩ := ih (by omega) (fun i hi => hx i (by omega))
    obtain ⟨h4, h5⟩ := square_le_of_abs_le (x n) (hx n (by omega)).1 (hx n (by omega)).2
    have hn2 : (n : Int) ≤ 254 := by omega
    have e : sum_squared x (n + 1) = sum_squared x n + x n * x n := by
      rw [sum_squared_succ]
      apply Int.emod_eq_of_lt <;> omega
    refine ⟨?_, ?_, ?_⟩
    · rw [e, Finset.sum_range_succ, h1]
    · rw [e]; omega
    · rw [e]; push_cast; omega

theorem corrected_ramp (i : Nat) :
    corrected sensor 0 (ramp i) = if i = 0 then 1 else 2 := by
  unfold ramp
  split <;> decide

theorem corrected_square_wave (i : Nat) :
    corrected sensor 0 (square_wave i) = if i % 2 = 0 then ((100 : Nat) : Int) else -((100 : Nat) : Int) := by
  unfold square_wave
  split <;> decide

theorem sum_squared_ramp : sum_squared (fun i => corrected sensor 0 (ramp i)) (passes sensor) = 5 := by
  decide

/-! ## Properties of the sampler -/

/-- C11, as stated, fails: for the two bias-corrected samples 1 and 2 (raw
codes 2049 and 2050 on the sample sensor, offset 0) the exact mean of squares
is 5/2, but `get_measure` hands `sqrt` the integer quotient `5 / 2 = 2`; so
the magnitude is `sqrt 2`, which differs from `sqrt (5/2)` for every `sqrt`
that tells 2 and 5/2 apart. -/
theorem ramp_magnitude :
    (∑ i in Finset.range sensor.SAMPLE_UNIT,
        ((corrected sensor 0 (ramp i) : Int) : ℚ) * (corrected sensor 0 (ramp i) : Int)) /
      (sensor.SAMPLE_UNIT : ℚ) = 5 / 2 ∧
    (∀ sqrt : ℚ → ℚ,
      rms_magnitude sqrt sensor (fun i => corrected sensor 0 (ramp i)) = sqrt 2) ∧
    (∀ sqrt : ℚ → ℚ, sqrt 2 ≠ sqrt (5 / 2) →
      rms_magnitude sqrt sensor (fun i => corrected sensor 0 (ramp i)) ≠
        sqrt ((∑ i in Finset.range sensor.SAMPLE_UNIT,
            ((corrected sensor 0 (ramp i) : Int) : ℚ) * (corrected sensor 0 (ramp i) : Int)) /
          (sensor.SAMPLE_UNIT : ℚ))) := by
  have hmean : (∑ i in Finset.range sensor.SAMPLE_UNIT,
        ((corrected sensor 0 (ramp i) : Int) : ℚ) * (corrected sensor 0 (ramp i) : Int)) /
      (sensor.SAMPLE_UNIT : ℚ) = 5 / 2 := by
    have e : sensor.SAMPLE_UNIT = 2 := rfl
    rw [e]
    simp only [Finset.sum_range_succ, Finset.sum_range_zero, corrected_ramp]
    norm_num
  have hcode : ∀ sqrt : ℚ → ℚ,
      rms_magnitude sqrt sensor (fun i => corrected sensor 0 (ramp i)) = sqrt 2 := by
    intro sqrt
    unfold rms_magnitude
    rw [sum_squared_ramp]
    have e : ((5 : Int) / ((sensor.SAMPLE_UNIT : Nat) : Int)) = 2 := by decide
    rw [e]
    norm_num
  refine ⟨hmean, hcode, fun sqrt h => ?_⟩
  rw [hcode, hmean]
  exact h

/-- C11, amended: for a batch of `SAMPLE_UNIT` samples (between 1 and 255 of
them) whose bias-corrected values have magnitude at most 4096, the magnitude
`get_measure` computes is `sqrt` of the integer quotient of the sum of
squares by `SAMPLE_UNIT`, that is of the integer part of the exact mean of
squares. -/
theorem rms_magnitude_integer_quotient (sqrt : ℚ → ℚ) (k : Sensor) (adc : Nat → Int)
    (adc_offset : Int) (hN0 : 0 < k.SAMPLE_UNIT) (hN : k.SAMPLE_UNIT ≤ 255)
    (hx : ∀ i, i < k.SAMPLE_UNIT →
      -4096 ≤ corrected k adc_offset (adc i) ∧ corrected k adc_offset (adc i) ≤ 4096) :
    rms_magnitude sqrt k (fun i => corrected k adc_offset (adc i)) =
      sqrt ((((∑ i in Finset.range k.SAMPLE_UNIT,
        corrected k adc_offset (adc i) * corrected k adc_offset (adc i)) /
          (k.SAMPLE_UNIT : Int) : Int)) : ℚ) ∧
    (∑ i in Finset.range k.SAMPLE_UNIT,
        corrected k adc_offset (adc i) * corrected k adc_offset (adc i)) / (k.SAMPLE_UNIT : Int) =
      ⌊(((∑ i in Finset.range k.SAMPLE_UNIT,
        corrected k adc_offset (adc i) * corrected k adc_offset (adc i) : Int)) : ℚ) /
          (k.SAMPLE_UNIT : ℚ)⌋ := by
  constructor
  · unfold rms_magnitude
    rw [passes_of_pos k hN0, (sum_squared_exact _ _ hN hx).1]
  · rw [Rat.floor_intCast_div_natCast]

/-- Witness of the amended C11: the batch 2049, 2050 on the sample sensor
with `Rat.sqrt` as the library function. -/
theorem rms_magnitude_integer_quotient_witness :
    (0 < sensor.SAMPLE_UNIT ∧ sensor.SAMPLE_UNIT ≤ 255) ∧
    rms_magnitude Rat.sqrt sensor (fun i => corrected sensor 0 (ramp i)) =
      Rat.sqrt ((((∑ i in Finset.range sensor.SAMPLE_UNIT,
        corrected sensor 0 (ramp i) * corrected sensor 0 (ramp i)) /
          (sensor.SAMPLE_UNIT : Int) : Int)) : ℚ) :=
  ⟨⟨by decide, by decide⟩,
    (rms_magnitude_integer_quotient Rat.sqrt sensor ramp 0 (by decide) (by decide)
      (fun i _ => by rw [corrected_ramp]; split <;> decide)).1⟩

/-- C12: for a batch of `SAMPLE_UNIT` samples (between 1 and 255 of them)
whose bias-corrected values alternate `+A`, `-A` with `A ≤ 4096`, and a
library `sqrt` that returns `A` for `A * A`, the input-referred RMS voltage
`get_measure` computes is `A * adc_scale_factor`; it is `0` when `A = 0`. -/
theorem square_wave_rms (sqrt : ℚ → ℚ) (k : Sensor) (adc : Nat → Int) (adc_offset : Int)
    (A : Nat) (hN0 : 0 < k.SAMPLE_UNIT) (hN : k.SAMPLE_UNIT ≤ 255) (hA : A ≤ 4096)
    (hsqrt : sqrt ((A * A : Nat) : ℚ) = (A : ℚ))
    (halt : ∀ i, i < k.SAMPLE_UNIT →
      corrected k adc_offset (adc i) = if i % 2 = 0 then (A : Int) else -(A : Int)) :
    rms_in sqrt k (fun i => corrected k adc_offset (adc i)) = (A : ℚ) * adc_scale_factor k ∧
    (A = 0 → rms_in sqrt k (fun i => corrected k adc_offset (adc i)) = 0) := by
  have hx : ∀ i, i < k.SAMPLE_UNIT →
      -4096 ≤ corrected k adc_offset (adc i) ∧ corrected k adc_offset (adc i) ≤ 4096 := by
    intro i hi
    rw [halt i hi]
    split <;> omega
  have hsum : ∑ i in Finset.range k.SAMPLE_UNIT,
      corrected k adc_offset (adc i) * corrected k adc_offset (adc i) =
        (k.SAMPLE_UNIT : Int) * ((A * A : Nat) : Int) := by
    have e : ∀ i ∈ Finset.range k.SAMPLE_UNIT,
        corrected k adc_offset (adc i) * corrected k adc_offset (adc i) = ((A * A : Nat) : Int) := by
      intro i hi
      rw [halt i (Finset.mem_range.mp hi)]
      split <;> push_cast <;> ring
    rw [Finset.sum_congr rfl e, Finset.sum_const, Finset.card_range]
    simp
  have hmag : rms_magnitude sqrt k (fun i => corrected k adc_offset (adc i)) = (A : ℚ) := by
    unfold rms_magnitude
    rw [passes_of_pos k hN0, (sum_squared_exact _ _ hN hx).1, hsum,
      Int.mul_ediv_cancel_left _ (by omega)]
    rw [Int.cast_natCast]
    exact hsqrt
  have hin : rms_in sqrt k (fun i => corrected k adc_offset (adc i)) =
      (A : ℚ) * adc_scale_factor k := by
    unfold rms_in
    rw [hmag]
  refine ⟨hin, fun h0 => ?_⟩
  rw [hin, h0]
  simp

/-- Witness of C12: raw codes alternating 2148, 1948 around the bias point
2048 on the sample sensor, amplitude 100, with `Rat.sqrt` as the library
function. -/
theorem square_wave_rms_witness :
    (0 < sensor.SAMPLE_UNIT ∧ sensor.SAMPLE_UNIT ≤ 255 ∧ 100 ≤ 4096 ∧
      Rat.sqrt ((100 * 100 : Nat) : ℚ) = ((100 : Nat) : ℚ)) ∧
    rms_in Rat.sqrt sensor (fun i => corrected sensor 0 (square_wave i)) =
      ((100 : Nat) : ℚ) * adc_scale_factor sensor :=
  have hs : Rat.sqrt ((100 * 100 : Nat) : ℚ) = ((100 : Nat) : ℚ) := by
    rw [Nat.cast_mul, Rat.sqrt_eq]
    simp
  ⟨⟨by decide, by decide, by decide, hs⟩,
    (square_wave_rms Rat.sqrt sensor square_wave 0 100 (by decide) (by decide) (by decide) hs
      (fun i _ => corrected_square_wave i)).1⟩

/-- C13: `get_measure` returns `0` and leaves `rms_v = 230` whatever the
conversions and the offset are, and the record it leaves is the same for any
two streams of voltage-channel conversions: neither `rms_v` nor `rms_c`
depends on them.  (The loop it runs is the source's for
`SAMPLE_UNIT ≤ 255`.) -/
theorem get_measure_voltage_constant (sqrt : ℚ → ℚ) (k : Sensor)
    (adc_I adc_V adc_V2 : Nat → Int) (em : em_realtime) (adc_offset : Int) :
    (get_measure sqrt k adc_I adc_V em adc_offset).1 = 0 ∧
    (get_measure sqrt k adc_I adc_V em adc_offset).2.rms_v = 230 ∧
    (get_measure sqrt k adc_I adc_V em adc_offset).2.rms_c =
      (get_measure sqrt k adc_I adc_V2 em adc_offset).2.rms_c ∧
    get_measure sqrt k adc_I adc_V em adc_offset =
      get_measure sqrt k adc_I adc_V2 em adc_offset :=
  ⟨rfl, rfl, rfl, rfl⟩

/-- C19: for `SAMPLE_UNIT ≤ 255` and bias-corrected samples of magnitude at
most 4096 on both channels, the two `uint32_t` accumulators of `get_measure`
hold the exact sums of squares: no addition wraps. -/
theorem sum_squared_never_wraps (k : Sensor) (adc_I adc_V : Nat → Int) (adc_offset : Int)
    (hN : k.SAMPLE_UNIT ≤ 255)
    (hI : ∀ i, i < passes k →
      -4096 ≤ corrected k adc_offset (adc_I i) ∧ corrected k adc_offset (adc_I i) ≤ 4096)
    (hV : ∀ i, i < passes k →
      -4096 ≤ corrected k adc_offset (adc_V i) ∧ corrected k adc_offset (adc_V i) ≤ 4096) :
    sum_squared (fun i => corrected k adc_offset (adc_I i)) (passes k) =
      ∑ i in Finset.range (passes k),
        corrected k adc_offset (adc_I i) * corrected k adc_offset (adc_I i) ∧
    sum_squared (fun i => corrected k adc_offset (adc_V i)) (passes k) =
      ∑ i in Finset.range (passes k),
        corrected k adc_offset (adc_V i) * corrected k adc_offset (adc_V i) ∧
    (∑ i in Finset.range (passes k),
        corrected k adc_offset (adc_I i) * corrected k adc_offset (adc_I i)) < 4294967296 ∧
    (∑ i in Finset.range (passes k),
        corrected k adc_offset (adc_V i) * corrected k adc_offset (adc_V i)) < 4294967296 := by
  have hp := passes_le k hN
  have hp2 : (passes k : Int) ≤ 255 := by omega
  obtain ⟨a1, _, a3⟩ := sum_squared_exact _ _ hp hI
  obtain ⟨b1, _, b3⟩ := sum_squared_exact _ _ hp hV
  refine ⟨a1, b1, ?_, ?_⟩
  · rw [← a1]; omega
  · rw [← b1]; omega

/-- Witness of C19: the square wave on the current channel and the ramp on
the voltage channel of the sample sensor. -/
theorem sum_squared_never_wraps_witness :
    sensor.SAMPLE_UNIT ≤ 255 ∧
    sum_squared (fun i => corrected sensor 0 (square_wave i)) (passes sensor) =
      ∑ i in Finset.range (passes sensor),
        corrected sensor 0 (square_wave i) * corrected sensor 0 (square_wave i) :=
  ⟨by decide,
    (sum_squared_never_wraps sensor square_wave ramp 0 (by decide)
      (fun i _ => by rw [corrected_square_wave]; split <;> decide)
      (fun i _ => by rw [corrected_ramp]; split <;> decide)).1⟩

/-! ## Reporter and startup: elementary facts -/

theorem init_block_eq (log : em_loggin) :
    init_block log =
      some { log with samples_1m_ready := false, samples_10m_ready := false } := by
  rfl

theorem midscale_accepted : (bias_check board midscale).1 = 0 := by
  rw [bias_check_ret, midscale_offset, board_scale]
  norm_num [board]

theorem zeros_refused : (bias_check board (fun _ => 0)).1 = -1 := by
  have e : (bias_check board (fun _ => 0)).2 = 0 := by
    rw [bias_check_offset]
    decide
  rw [bias_check_ret, e, board_scale]
  norm_num [board]

theorem accumulate_zero (n : Nat) : accumulate (fun _ => 0) n = 0 := by
  rw [accumulate_eq_sum]
  simp

/-! ## Properties of the reporter and of the startup -/

/-- C14: when no sampling thread has been started (`pid_sampling == -1`, so
that calibration is part of the startup) and `bias_check` fails on the
conversions of the bias channel, then whatever `ct_sensor_setup`,
`adc_setup` and the kernel answer, `em_init` returns `-1`, has called
`thread_create` for neither thread and leaves both pids as they were. -/
theorem em_init_calibration_failure (b : Config) (ch : Channels) (k : Sensor) (o : Outside)
    (s : Startup) (hpid : s.pid_sampling = -1) (hbias : (bias_check b o.adc_bias).1 < 0) :
    (em_init b ch k o s).map Prod.fst = some (-1) ∧
    (em_init b ch k o s).map (fun r => r.2.created) = some s.created ∧
    (em_init b ch k o s).map (fun r => r.2.pid_sampling) = some s.pid_sampling ∧
    (em_init b ch k o s).map (fun r => r.2.pid_collect_1m) = some s.pid_collect_1m := by
  unfold em_init
  rw [init_block_eq]
  by_cases h : adc_setup ch o.adc_init < 0
  · simp [h]
  · simp [h, hpid, hbias]

/-- Witness of C14: at boot, with the bias channel stuck at code `0`, the
startup is refused and no thread is created. -/
theorem em_init_calibration_failure_witness :
    (boot.pid_sampling = -1 ∧ (bias_check board grounded.adc_bias).1 < 0) ∧
    (em_init board lines sensor grounded boot).map Prod.fst = some (-1) ∧
    (em_init board lines sensor grounded boot).map (fun r => r.2.created) = some [] :=
  have hb : (bias_check board grounded.adc_bias).1 < 0 := by
    show (bias_check board (fun _ => 0)).1 < 0
    rw [zeros_refused]
    decide
  ⟨⟨rfl, hb⟩,
    (em_init_calibration_failure board lines sensor grounded boot rfl hb).1,
    (em_init_calibration_failure board lines sensor grounded boot rfl hb).2.1⟩

/-- C15: `em_init` does not look at the value of `ct_sensor_setup`: its
result is the same for any two sets of sensor constants.  With a sensor
configured for 120 A on a transformer rated for 100 A, `ct_sensor_setup`
returns `-1`, and `em_init` returns `0` with both threads created. -/
theorem em_init_ignores_ct_sensor_setup :
    ct_sensor_setup overrated = -1 ∧
    (em_init board lines overrated healthy boot).map Prod.fst = some 0 ∧
    (em_init board lines overrated healthy boot).map (fun r => r.2.created) =
      some [("em sampling", 3), ("em collect 1m", 4)] ∧
    (∀ (b : Config) (ch : Channels) (k k2 : Sensor) (o : Outside) (s : Startup),
      em_init b ch k o s = em_init b ch k2 o s) := by
  have hct : ct_sensor_setup overrated = -1 := by
    unfold ct_sensor_setup
    norm_num [overrated, sensor]
  have hadc : ¬ adc_setup lines healthy.adc_init < 0 := by decide
  have hbias : ¬ (boot.pid_sampling = -1 ∧ (bias_check board healthy.adc_bias).1 < 0) := by
    intro h
    have h2 : (bias_check board midscale).1 < 0 := h.2
    rw [midscale_accepted] at h2
    exact absurd h2 (by decide)
  have hrun : em_init board lines overrated healthy boot =
      some (0, { pid_sampling := 3, pid_collect_1m := 4, em_log := init.em_log
                 created := [("em sampling", 3), ("em collect 1m", 4)] }) := by
    unfold em_init
    rw [init_block_eq]
    simp only [hadc, if_false]
    rw [if_neg hbias]
    rfl
  refine ⟨hct, ?_, ?_, fun b ch k k2 o s => rfl⟩
  · rw [hrun]; rfl
  · rw [hrun]; rfl

/-- C16, as stated, fails: with the realtime record holding 1 A, 230 V and
zero averages, and the aggregation record after one pass with that reading,
the query leaves `rms_c_1m = 1/240` where it was `0`: the realtime record
is not the same after the query. -/
theorem print_data_writes_em_rt :
    (reading 1 230).rms_c_1m = 0 ∧
    (print_data (reading 1 230) (run MINUTE TEN init [reading 1 230]).em_log).1.rms_c_1m =
      1 / 240 ∧
    (print_data (reading 1 230) (run MINUTE TEN init [reading 1 230]).em_log).1 ≠
      reading 1 230 ∧
    (em_handler (reading 1 230) (run MINUTE TEN init [reading 1 230]).em_log).2.1 ≠
      reading 1 230 := by
  have hc : (run MINUTE TEN init [reading 1 230]).em_log.c = store (fun _ => 0) 0 1 := by
    rw [run_cons, run_nil, tick_c]
    rfl
  have hval : (print_data (reading 1 230)
      (run MINUTE TEN init [reading 1 230]).em_log).1.rms_c_1m = 1 / 240 := by
    show accumulate (run MINUTE TEN init [reading 1 230]).em_log.c MINUTE / (MINUTE : ℚ) = 1 / 240
    rw [hc, accumulate_eq_sum]
    have e : ∑ i in Finset.range MINUTE, store (fun _ => 0) 0 1 i = 1 := by
      simp only [store]
      rw [Finset.sum_ite_eq']
      simp [MINUTE]
    rw [e]
    norm_num [MINUTE]
  have hne : (print_data (reading 1 230) (run MINUTE TEN init [reading 1 230]).em_log).1 ≠
      reading 1 230 := by
    intro h
    have h2 := congrArg em_realtime.rms_c_1m h
    rw [hval] at h2
    norm_num [reading] at h2
  exact ⟨rfl, hval, hne, hne⟩

/-- C16, amended: the query leaves the aggregation record `em_log` and the
readings `rms_c`, `rms_v` of the realtime record as they were; it overwrites
the four average fields of `em_rt` with the means of the short window
(`MINUTE` slots) and of the long window (10 slots); `em_handler` returns
`0`. -/
theorem print_data_frame (em_rt : em_realtime) (em_log : em_loggin) :
    (print_data em_rt em_log).2 = em_log ∧
    (print_data em_rt em_log).1.rms_c = em_rt.rms_c ∧
    (print_data em_rt em_log).1.rms_v = em_rt.rms_v ∧
    (print_data em_rt em_log).1.rms_c_1m =
      (∑ i in Finset.range MINUTE, em_log.c i) / (MINUTE : ℚ) ∧
    (print_data em_rt em_log).1.rms_v_1m =
      (∑ i in Finset.range MINUTE, em_log.v i) / (MINUTE : ℚ) ∧
    (print_data em_rt em_log).1.rms_c_10m = (∑ i in Finset.range 10, em_log.c10m i) / 10 ∧
    (print_data em_rt em_log).1.rms_v_10m = (∑ i in Finset.range 10, em_log.v10m i) / 10 ∧
    em_handler em_rt em_log = (0, print_data em_rt em_log) := by
  refine ⟨rfl, rfl, rfl, ?_, ?_, ?_, ?_, rfl⟩
  · show accumulate em_log.c MINUTE / (MINUTE : ℚ) = _
    rw [accumulate_eq_sum]
  · show accumulate em_log.v MINUTE / (MINUTE : ℚ) = _
    rw [accumulate_eq_sum]
  · show accumulate em_log.c10m 10 / 10 = _
    rw [accumulate_eq_sum]
  · show accumulate em_log.v10m 10 / 10 = _
    rw [accumulate_eq_sum]

/-- C18: the initialisation block of `em_init` clears the two flags and
changes no slot: the loops `while (i > MINUTE)` and `while (i > 10)` start at
`i = 0` and their bodies never run.  A record whose slot `c[0]` holds 5 and
`v[0]` holds 230 still holds them after the block. -/
theorem init_block_leaves_slots (log : em_loggin) :
    init_block log =
      some { log with samples_1m_ready := false, samples_10m_ready := false } ∧
    stale.c 0 = 5 ∧ stale.v 0 = 230 ∧
    (init_block stale).map (fun l => l.c 0) = some 5 ∧
    (init_block stale).map (fun l => l.v 0) = some 230 := by
  have hc : stale.c 0 = 5 := by
    show (run MINUTE TEN init [reading 5 230]).em_log.c 0 = 5
    rw [run_cons, run_nil, tick_c]
    rfl
  have hv : stale.v 0 = 230 := by
    show (run MINUTE TEN init [reading 5 230]).em_log.v 0 = 230
    rw [run_cons, run_nil, tick_v]
    rfl
  refine ⟨init_block_eq log, hc, hv, ?_, ?_⟩
  · rw [init_block_eq]
    exact congrArg some hc
  · rw [init_block_eq]
    exact congrArg some hv

end EnergyMeter
